import Mathlib

/-!
Verification of the edit-planning core of the flona-ai repository
(src/backend/matcher.py and src/backend/planner.py) against its
natural-language specification.

Python floats are modelled as real numbers; `round(x, k)` is modelled as
rounding `x * 10^k` to the nearest integer (half away from the midpoint
towards the larger value) and dividing back.  External collaborators
(the Gemini embedding call, the Gemini reasoning call, and Python float
string formatting) are modelled as explicit oracle parameters bundled in
`Collaborators`; a call that may raise is an `Except String` value.
Python code that raises is modelled with `Except.error`.
-/

/-- A transcript segment, source dict with keys `start`, `end`, `text`
(`planner.py` reads `segment['start']`, `segment['end']`, `segment['text']`).
The source key `end` is a Lean keyword and is rendered `endTime`. -/
structure Segment where
  start : ℝ
  endTime : ℝ
  text : String

/-- A B-roll clip analysis, source dict with keys `clip_name` and
`description` (`matcher.py` reads `clip['clip_name']`, `clip['description']`). -/
structure ClipDescriptor where
  clip_name : String
  description : String

/-- An edit decision as built by `generate_edit_plan` (planner.py lines 78-85):
the dict literal with keys `start_time`, `duration`, `b_roll_clip`, `reason`,
`transcript_text`, `similarity_score`. -/
structure EditDecision where
  start_time : ℝ
  duration : ℝ
  b_roll_clip : String
  reason : String
  transcript_text : String
  similarity_score : ℝ

/-- The `metadata` dict of the EDL (planner.py lines 92-98). -/
structure Metadata where
  total_segments : ℕ
  total_broll_clips : ℕ
  edits_applied : ℕ
  similarity_threshold : ℝ
  min_gap_seconds : ℝ

/-- The Edit Decision List returned by `generate_edit_plan`. -/
structure EDL where
  metadata : Metadata
  edits : List EditDecision

/-- The external collaborators the matcher consumes:
`embed` is `gemini_client.get_embedding` (an API call that may raise),
`genReason` is the Gemini `model.generate_content` call made by
`generate_match_reason` (may raise; its result is the response text),
`fmt` is Python float string formatting `f"..x:.kf.."`, which depends on
the binary float representation and is kept abstract. -/
structure Collaborators where
  embed : String → Except String (List ℝ)
  genReason : String → String → ℝ → Except String String
  fmt : ℝ → ℕ → String

/-- Python `round(x, 2)` on a real: round `x * 100` to the nearest integer
and divide by 100 (ties go up in this model). -/
noncomputable def round2 (x : ℝ) : ℝ := ((round (x * 100) : ℤ) : ℝ) / 100

/-- Python `round(x, 3)` on a real. -/
noncomputable def round3 (x : ℝ) : ℝ := ((round (x * 1000) : ℤ) : ℝ) / 1000

/-- Dot product of two vectors, truncating to the shorter one, as
`numpy` does inside `sklearn`'s row-wise product. -/
def dotList (a b : List ℝ) : ℝ := (List.zipWith (fun x y => x * y) a b).sum

/-- Sum of squares of a vector (the square of its Euclidean norm). -/
def normSq (a : List ℝ) : ℝ := (a.map (fun x => x * x)).sum

/-- `sklearn.metrics.pairwise.cosine_similarity(vec1, vec2)[0][0]`
(matcher.py line 56): sklearn l2-normalizes each row, treating a zero
norm as 1 (so a zero vector stays zero and the result is 0), then takes
the dot product; for non-zero rows this is `dot / (norm1 * norm2)`. -/
noncomputable def cosine_sim (v1 v2 : List ℝ) : ℝ :=
  if Real.sqrt (normSq v1) = 0 ∨ Real.sqrt (normSq v2) = 0 then 0
  else dotList v1 v2 / (Real.sqrt (normSq v1) * Real.sqrt (normSq v2))

/-- matcher.py `compute_similarity` (lines 31-57): returns 0.0 if either
embedding is falsy (empty), truncates both to the shorter length when the
lengths differ, then returns the sklearn cosine similarity. -/
noncomputable def compute_similarity (embedding1 embedding2 : List ℝ) : ℝ :=
  if embedding1.isEmpty ∨ embedding2.isEmpty then 0
  else if embedding1.length ≠ embedding2.length then
    cosine_sim (embedding1.take (min embedding1.length embedding2.length))
      (embedding2.take (min embedding1.length embedding2.length))
  else
    cosine_sim embedding1 embedding2

/-- matcher.py `get_embedding` (lines 13-28): calls the Gemini embedding
collaborator and returns a 768-dimensional all-zero vector if that call
raises (the `except` branch returns `[0.0] * 768`). -/
def get_embedding (collab : Collaborators) (text : String) : List ℝ :=
  match collab.embed text with
  | .ok v => v
  | .error _ => List.replicate 768 (0 : ℝ)

/-- matcher.py `generate_match_reason` (lines 107-143): asks the reasoning
collaborator and appends the formatted score; on any failure falls back to
a deterministic template (quote characters of the source f-string elided). -/
def generate_match_reason (collab : Collaborators)
    (segment_text clip_description : String) (similarity : ℝ) : String :=
  match collab.genReason segment_text clip_description similarity with
  | .ok response =>
      response.trim ++ " (Similarity: " ++ collab.fmt similarity 3 ++ ")"
  | .error _ =>
      "Semantic match with similarity score " ++ collab.fmt similarity 3 ++
        ". The B-roll " ++ clip_description ++
        " aligns with the spoken content about " ++ segment_text.take 50 ++ "..."

/-- The body of the scoring loop of `find_best_match` (matcher.py lines
87-94): compute the clip's similarity against the segment embedding and
keep it when it strictly beats the running best. -/
noncomputable def matchStep (collab : Collaborators) (segment_embedding : List ℝ)
    (best : Option ClipDescriptor × ℝ) (clip : ClipDescriptor) :
    Option ClipDescriptor × ℝ :=
  let similarity := compute_similarity segment_embedding (get_embedding collab clip.description)
  if best.2 < similarity then (some clip, similarity) else best

/-- The scoring loop of `find_best_match` (matcher.py lines 80-94): embed the
segment text once, then scan the catalog in order keeping
`(best_clip, best_score)`, initialized to `(None, -1.0)`. -/
noncomputable def bestOf (collab : Collaborators) (segment_text : String)
    (broll_clips : List ClipDescriptor) : Option ClipDescriptor × ℝ :=
  broll_clips.foldl (matchStep collab (get_embedding collab segment_text))
    ((none : Option ClipDescriptor), (-1 : ℝ))

/-- matcher.py `find_best_match` (lines 60-104).  With an empty catalog it
returns immediately; otherwise it runs the scoring loop `bestOf` and compares
the winner to the threshold.  When `best_score >= threshold` but no clip was
ever selected (every score is exactly -1.0), the source evaluates
`best_clip['description']` with `best_clip = None` and raises a `TypeError`,
modelled as `Except.error`. -/
noncomputable def find_best_match (collab : Collaborators) (segment_text : String)
    (broll_clips : List ClipDescriptor) (threshold : ℝ) :
    Except String (Option ClipDescriptor × ℝ × String) :=
  if broll_clips.isEmpty then .ok (none, 0, "No B-roll clips available")
  else
    let best := bestOf collab segment_text broll_clips
    if best.2 < threshold then
      .ok (none, best.2, "No B-roll clip matched above threshold " ++
        collab.fmt threshold 2 ++ ". Best score: " ++ collab.fmt best.2 3)
    else
      match best.1 with
      | some best_clip =>
          .ok (some best_clip, best.2,
            generate_match_reason collab segment_text best_clip.description best.2)
      | none => .error "TypeError: NoneType object is not subscriptable"

/-- The similarity `find_best_match` assigns to a clip for a given segment
text: segment embedding against the clip description's embedding. -/
noncomputable def clipScore (collab : Collaborators) (segment_text : String)
    (clip : ClipDescriptor) : ℝ :=
  compute_similarity (get_embedding collab segment_text)
    (get_embedding collab clip.description)

/-- The per-segment loop of planner.py `generate_edit_plan` (lines 42-88),
carrying `last_edit_time` (initialized by the caller to `-min_gap`): the gap
gate, the match gate, the duration policy with the 2-second floor, and the
commit that rounds the duration to 2 decimals but advances `last_edit_time`
by the unrounded `broll_duration`.  An exception from `find_best_match`
propagates. -/
noncomputable def planEdits (collab : Collaborators) (broll_clips : List ClipDescriptor)
    (similarity_threshold min_gap : ℝ) :
    ℝ → List Segment → Except String (List EditDecision)
  | _, [] => .ok []
  | last_edit_time, segment :: rest =>
    if segment.start - last_edit_time < min_gap then
      planEdits collab broll_clips similarity_threshold min_gap last_edit_time rest
    else
      match find_best_match collab segment.text broll_clips similarity_threshold with
      | .error e => .error e
      | .ok (best_clip, similarity, reason) =>
        match best_clip with
        | none => planEdits collab broll_clips similarity_threshold min_gap last_edit_time rest
        | some clip =>
          let segment_duration := segment.endTime - segment.start
          let broll_duration := min (segment_duration * 0.8) segment_duration
          if broll_duration < 2.0 then
            planEdits collab broll_clips similarity_threshold min_gap last_edit_time rest
          else
            match planEdits collab broll_clips similarity_threshold min_gap
                (segment.start + broll_duration) rest with
            | .error e => .error e
            | .ok rest_edits =>
              .ok (⟨segment.start, round2 broll_duration, clip.clip_name, reason,
                    segment.text.take 100, round3 similarity⟩ :: rest_edits)

/-- planner.py `generate_edit_plan` (lines 11-102): run the per-segment scan
with `last_edit_time = -min_gap` and assemble the EDL with its metadata.
The source reads the threshold and gap from the environment when the caller
passes `None`; here they are explicit arguments, as in every claim. -/
noncomputable def generate_edit_plan (collab : Collaborators)
    (transcript_segments : List Segment) (broll_clips : List ClipDescriptor)
    (similarity_threshold min_gap : ℝ) : Except String EDL :=
  match planEdits collab broll_clips similarity_threshold min_gap
      (-min_gap) transcript_segments with
  | .error e => .error e
  | .ok edits =>
    .ok { metadata := { total_segments := transcript_segments.length,
                        total_broll_clips := broll_clips.length,
                        edits_applied := edits.length,
                        similarity_threshold := similarity_threshold,
                        min_gap_seconds := min_gap },
          edits := edits }

/-- An edit dict as `validate_edl` reads it: each of the four checked keys
may be present or absent. -/
structure RawEdit where
  start_time : Option ℝ
  duration : Option ℝ
  b_roll_clip : Option String
  reason : Option String

/-- An edit built by `generate_edit_plan`, viewed as the dict `validate_edl`
reads: all four checked keys are present. -/
def editToRaw (e : EditDecision) : RawEdit :=
  ⟨some e.start_time, some e.duration, some e.b_roll_clip, some e.reason⟩

/-- The per-edit loop of planner.py `validate_edl` (lines 120-129): for each
edit check the four required fields in order, then `duration <= 0`, then
`start_time < 0` (error messages keep the edit index; interpolated float
values are elided from the message text). -/
noncomputable def validateEdits : ℕ → List RawEdit → Except String Bool
  | _, [] => .ok true
  | idx, e :: rest =>
    match e.start_time with
    | none => .error ("Edit " ++ toString idx ++ " missing required field: start_time")
    | some st =>
      match e.duration with
      | none => .error ("Edit " ++ toString idx ++ " missing required field: duration")
      | some d =>
        match e.b_roll_clip with
        | none => .error ("Edit " ++ toString idx ++ " missing required field: b_roll_clip")
        | some _ =>
          match e.reason with
          | none => .error ("Edit " ++ toString idx ++ " missing required field: reason")
          | some _ =>
            if d ≤ 0 then .error ("Edit " ++ toString idx ++ " has invalid duration")
            else if st < 0 then .error ("Edit " ++ toString idx ++ " has invalid start_time")
            else validateEdits (idx + 1) rest

/-- planner.py `validate_edl` (lines 105-131): raises when the `edits` key is
absent (`none`), otherwise scans the edits; returns `true` when all checks
pass.  The EDL is represented by its `edits` key, the only one read. -/
noncomputable def validate_edl (edits : Option (List RawEdit)) : Except String Bool :=
  match edits with
  | none => .error "EDL must contain edits key"
  | some es => validateEdits 0 es

/-- The condition under which the claim says `validate_edl` must fail:
a missing checked field, a non-positive duration, or a negative start. -/
def invalidEdit (e : RawEdit) : Prop :=
  e.start_time = none ∨ e.duration = none ∨ e.b_roll_clip = none ∨ e.reason = none ∨
    (∃ d, e.duration = some d ∧ d ≤ 0) ∨ (∃ st, e.start_time = some st ∧ st < 0)

/-! ### Concrete instances used for witnesses and counterexamples -/

/-- A collaborator whose embedding call always fails and whose reasoning
call always fails (formatting returns the empty string). -/
def collabFail : Collaborators :=
  ⟨fun _ => .error "boom", fun _ _ _ => .error "down", fun _ _ => ""⟩

/-- A collaborator that embeds every text as the one-dimensional unit vector
`[1.0]`, so every similarity is exactly 1.0; its reasoning call fails. -/
def collabOne : Collaborators :=
  ⟨fun _ => .ok [(1 : ℝ)], fun _ _ _ => .error "down", fun _ _ => ""⟩

/-- A collaborator realizing Scenario A of the spec: the segment text
"intro" embeds as `[1, 0]` and every clip description embeds as
`[0.9, sqrt 0.19]`, so the clip scores exactly 0.9 against the segment. -/
noncomputable def collabScen : Collaborators :=
  ⟨fun t => .ok (if t = "intro" then [(1 : ℝ), 0] else [(9 / 10 : ℝ), Real.sqrt 19 / 10]),
   fun _ _ _ => .error "down", fun _ _ => ""⟩

/-- A one-clip catalog used in concrete runs. -/
def clipC : ClipDescriptor := ⟨"c1", "d1"⟩

/-- The segment of Scenario A of the spec. -/
noncomputable def segIntro : Segment := ⟨0, 10, "intro"⟩

/-- First segment of the overlap counterexample: duration 2.52, so the
B-roll duration is 2.016 and the stored, rounded duration is 2.02. -/
noncomputable def cexSeg1 : Segment := ⟨0, 2.52, "a"⟩

/-- Second segment of the overlap counterexample: it starts 0.002 after the
planner's internal `last_edit_time` 2.016, clearing a 0.001 gap gate with a
margin, but before the first edit's rounded end 2.02. -/
noncomputable def cexSeg2 : Segment := ⟨2.018, 12.018, "b"⟩

/-- The EDL of a run of `generate_edit_plan` over one segment and an empty
catalog with threshold 0.5 and gap 8: no edits. -/
noncomputable def edlEmpty : EDL := ⟨⟨1, 0, 0, 1 / 2, 8⟩, []⟩

/-- The B-roll duration the planner computes for a segment (planner.py
line 71): `min(segment_duration * 0.8, segment_duration)`. -/
noncomputable def brollDuration (segment : Segment) : ℝ :=
  min ((segment.endTime - segment.start) * 0.8) (segment.endTime - segment.start)

/-! ### Basic facts about the similarity scorer -/

lemma normSq_nil : normSq [] = 0 := rfl

lemma normSq_cons (x : ℝ) (xs : List ℝ) : normSq (x :: xs) = x * x + normSq xs := by
  simp [normSq]

lemma dotList_nil (b : List ℝ) : dotList [] b = 0 := rfl

lemma dotList_cons (x y : ℝ) (xs ys : List ℝ) :
    dotList (x :: xs) (y :: ys) = x * y + dotList xs ys := by
  simp [dotList]

lemma normSq_nonneg (a : List ℝ) : 0 ≤ normSq a := by
  induction a with
  | nil => simp [normSq_nil]
  | cons x xs ih => rw [normSq_cons]; nlinarith [mul_self_nonneg x]

lemma normSq_pos (a : List ℝ) (h : ∃ x ∈ a, x ≠ 0) : 0 < normSq a := by
  induction a with
  | nil => simp at h
  | cons x xs ih =>
    rw [normSq_cons]
    rcases h with ⟨y, hy, hy0⟩
    rcases List.mem_cons.1 hy with rfl | hmem
    · nlinarith [mul_self_pos.2 hy0, normSq_nonneg xs]
    · nlinarith [ih ⟨y, hmem, hy0⟩, mul_self_nonneg x]

lemma dotList_self (a : List ℝ) : dotList a a = normSq a := by
  induction a with
  | nil => rfl
  | cons x xs ih => rw [dotList_cons, normSq_cons, ih]

lemma dotList_comm (a b : List ℝ) : dotList a b = dotList b a := by
  unfold dotList
  rw [List.zipWith_comm_of_comm]
  exact fun x y => mul_comm x y

/-- Cauchy-Schwarz for list dot products (the lists may have different
lengths; `dotList` truncates to the shorter one). -/
lemma dotList_sq_le (a : List ℝ) : ∀ b : List ℝ,
    dotList a b ^ 2 ≤ normSq a * normSq b := by
  induction a with
  | nil => intro b; simp [dotList_nil, normSq_nil]
  | cons x xs ih =>
    intro b
    cases b with
    | nil => simp [dotList, normSq_nil]
    | cons y ys =>
      rw [dotList_cons, normSq_cons, normSq_cons]
      have hA := normSq_nonneg xs
      have hB := normSq_nonneg ys
      have hIH := ih ys
      rcases lt_or_eq_of_le hB with hBpos | hB0
      · have hkey : normSq ys *
            ((x * x + normSq xs) * (y * y + normSq ys) - (x * y + dotList xs ys) ^ 2)
            = (x * normSq ys - y * dotList xs ys) ^ 2
              + (y * y + normSq ys) * (normSq xs * normSq ys - dotList xs ys ^ 2) := by
          ring
        nlinarith [hkey, sq_nonneg (x * normSq ys - y * dotList xs ys),
          mul_nonneg (by nlinarith [sq_nonneg y] : (0:ℝ) ≤ y * y + normSq ys)
            (by nlinarith : (0:ℝ) ≤ normSq xs * normSq ys - dotList xs ys ^ 2), hBpos]
      · have hD2 : dotList xs ys ^ 2 = 0 :=
          le_antisymm (by nlinarith) (sq_nonneg _)
        have hD : dotList xs ys = 0 := by
          exact pow_eq_zero_iff (by norm_num) |>.1 hD2
        rw [hD, ← hB0]
        nlinarith [mul_nonneg hA (sq_nonneg y)]

lemma cosine_sim_bounds (v1 v2 : List ℝ) :
    -1 ≤ cosine_sim v1 v2 ∧ cosine_sim v1 v2 ≤ 1 := by
  unfold cosine_sim
  split
  · norm_num
  · rename_i h
    push_neg at h
    obtain ⟨h1, h2⟩ := h
    have s1 : 0 < Real.sqrt (normSq v1) :=
      lt_of_le_of_ne (Real.sqrt_nonneg _) (Ne.symm h1)
    have s2 : 0 < Real.sqrt (normSq v2) :=
      lt_of_le_of_ne (Real.sqrt_nonneg _) (Ne.symm h2)
    have habs : |dotList v1 v2| ≤ Real.sqrt (normSq v1) * Real.sqrt (normSq v2) := by
      have hcs := dotList_sq_le v1 v2
      have hsq : dotList v1 v2 ^ 2 ≤ (Real.sqrt (normSq v1) * Real.sqrt (normSq v2)) ^ 2 := by
        rw [mul_pow, Real.sq_sqrt (normSq_nonneg v1), Real.sq_sqrt (normSq_nonneg v2)]
        exact hcs
      calc |dotList v1 v2| = Real.sqrt (dotList v1 v2 ^ 2) := (Real.sqrt_sq_eq_abs _).symm
        _ ≤ Real.sqrt ((Real.sqrt (normSq v1) * Real.sqrt (normSq v2)) ^ 2) :=
            Real.sqrt_le_sqrt hsq
        _ = |Real.sqrt (normSq v1) * Real.sqrt (normSq v2)| := Real.sqrt_sq_eq_abs _
        _ = Real.sqrt (normSq v1) * Real.sqrt (normSq v2) :=
            abs_of_pos (mul_pos s1 s2)
    have hpos := mul_pos s1 s2
    constructor
    · rw [le_div_iff₀ hpos]
      have := abs_le.1 habs
      linarith [this.1]
    · rw [div_le_one hpos]
      exact (abs_le.1 habs).2

lemma cosine_sim_comm (v1 v2 : List ℝ) : cosine_sim v1 v2 = cosine_sim v2 v1 := by
  unfold cosine_sim
  by_cases h : Real.sqrt (normSq v1) = 0 ∨ Real.sqrt (normSq v2) = 0
  · rw [if_pos h, if_pos (Or.symm h)]
  · rw [if_neg h, if_neg (fun hc => h (Or.symm hc)), dotList_comm, mul_comm]

lemma cosine_sim_self (v : List ℝ) (h : 0 < normSq v) : cosine_sim v v = 1 := by
  unfold cosine_sim
  have hs : Real.sqrt (normSq v) ≠ 0 := by
    rw [Real.sqrt_ne_zero (normSq_nonneg v)]
    exact ne_of_gt h
  rw [if_neg (by tauto), dotList_self, Real.mul_self_sqrt (normSq_nonneg v)]
  exact div_self (ne_of_gt h)

lemma cosine_sim_zero_left (v2 : List ℝ) (n : ℕ) :
    cosine_sim (List.replicate n (0 : ℝ)) v2 = 0 := by
  unfold cosine_sim
  have h : normSq (List.replicate n (0 : ℝ)) = 0 := by
    induction n with
    | zero => rfl
    | succ k ih => rw [List.replicate_succ, normSq_cons, ih]; ring
  rw [if_pos (Or.inl (by rw [h, Real.sqrt_zero]))]

lemma cosine_sim_zero_right (v1 : List ℝ) (n : ℕ) :
    cosine_sim v1 (List.replicate n (0 : ℝ)) = 0 := by
  rw [cosine_sim_comm]; exact cosine_sim_zero_left v1 n

lemma isEmpty_false_of_ne_nil {a : List ℝ} (h : a ≠ []) : a.isEmpty = false := by
  cases a with
  | nil => exact absurd rfl h
  | cons x xs => rfl

lemma compute_similarity_bounds (a b : List ℝ) :
    -1 ≤ compute_similarity a b ∧ compute_similarity a b ≤ 1 := by
  unfold compute_similarity
  split
  · norm_num
  · split
    · exact cosine_sim_bounds _ _
    · exact cosine_sim_bounds _ _

lemma compute_similarity_comm (a b : List ℝ) :
    compute_similarity a b = compute_similarity b a := by
  unfold compute_similarity
  by_cases he : a.isEmpty ∨ b.isEmpty
  · rw [if_pos he, if_pos (Or.symm he)]
  · rw [if_neg he, if_neg (fun hc => he (Or.symm hc))]
    by_cases hl : a.length = b.length
    · rw [if_neg (fun hc => hc hl), if_neg (fun hc => hc hl.symm)]
      exact cosine_sim_comm a b
    · rw [if_pos hl, if_pos (Ne.symm hl), min_comm b.length a.length]
      exact cosine_sim_comm _ _

lemma compute_similarity_zero_left (other : List ℝ) (n : ℕ) :
    compute_similarity (List.replicate n (0 : ℝ)) other = 0 := by
  unfold compute_similarity
  split
  · rfl
  · split
    · rw [List.take_replicate]
      exact cosine_sim_zero_left _ _
    · rename_i hne hl
      push_neg at hl
      have : List.replicate n (0 : ℝ) = List.replicate n (0:ℝ) := rfl
      calc cosine_sim (List.replicate n (0:ℝ)) other
          = cosine_sim (List.replicate n (0:ℝ)).reverse.reverse other := by
            rw [List.reverse_reverse]
        _ = 0 := by
            rw [List.reverse_reverse]
            exact cosine_sim_zero_left other n

lemma compute_similarity_zero_right (other : List ℝ) (n : ℕ) :
    compute_similarity other (List.replicate n (0 : ℝ)) = 0 := by
  rw [compute_similarity_comm]
  exact compute_similarity_zero_left other n

lemma compute_similarity_self_eq_one (v : List ℝ) (h : ∃ x ∈ v, x ≠ 0) :
    compute_similarity v v = 1 := by
  have hne : v ≠ [] := by
    rintro rfl
    simp at h
  unfold compute_similarity
  rw [if_neg (by rw [isEmpty_false_of_ne_nil hne]; simp), if_neg (fun hc => hc rfl)]
  exact cosine_sim_self v (normSq_pos v h)

/-! ### Rounding facts -/

lemma round2_le (x : ℝ) : round2 x ≤ x + 1 / 200 := by
  unfold round2
  rw [round_eq, div_le_iff₀ (by norm_num : (0:ℝ) < 100)]
  have h := Int.floor_le (x * 100 + 1 / 2)
  linarith

lemma round2_two_le (x : ℝ) (h : 2 ≤ x) : 2 ≤ round2 x := by
  unfold round2
  rw [round_eq, le_div_iff₀ (by norm_num : (0:ℝ) < 100)]
  have h200 : (200 : ℤ) ≤ ⌊x * 100 + 1 / 2⌋ := Int.le_floor.2 (by push_cast; linarith)
  have : (200 : ℝ) ≤ (⌊x * 100 + 1 / 2⌋ : ℝ) := by exact_mod_cast h200
  linarith

lemma round2_pos (x : ℝ) (h : 2 ≤ x) : 0 < round2 x := lt_of_lt_of_le (by norm_num) (round2_two_le x h)

lemma round2_eval (x : ℝ) (n : ℤ) (h1 : (n : ℝ) ≤ x * 100 + 1 / 2)
    (h2 : x * 100 + 1 / 2 < n + 1) : round2 x = (n : ℝ) / 100 := by
  unfold round2
  rw [round_eq]
  congr 2
  exact Int.floor_eq_iff.2 ⟨h1, h2⟩

lemma round3_eval (x : ℝ) (n : ℤ) (h1 : (n : ℝ) ≤ x * 1000 + 1 / 2)
    (h2 : x * 1000 + 1 / 2 < n + 1) : round3 x = (n : ℝ) / 1000 := by
  unfold round3
  rw [round_eq]
  congr 2
  exact Int.floor_eq_iff.2 ⟨h1, h2⟩

/-! ### Claims about the Similarity Scorer -/

lemma compute_similarity_one_negone : compute_similarity [(1 : ℝ)] [(-1 : ℝ)] = -1 := by
  unfold compute_similarity
  rw [if_neg (by simp), if_neg (by simp)]
  unfold cosine_sim
  have h1 : normSq [(1 : ℝ)] = 1 := by simp [normSq]
  have h2 : normSq [(-1 : ℝ)] = 1 := by simp [normSq]
  rw [h1, h2, Real.sqrt_one, if_neg (by norm_num)]
  simp [dotList]

/-- Claim C2, counterexample: the code never clamps the cosine, so for the
one-element embeddings `[1.0]` and `[-1.0]` the scorer returns `-1.0`,
outside the claimed interval `[0, 1]`. -/
theorem compute_similarity_not_clamped :
    compute_similarity [(1 : ℝ)] [(-1 : ℝ)] = -1 ∧
    ¬ (0 ≤ compute_similarity [(1 : ℝ)] [(-1 : ℝ)]) :=
  ⟨compute_similarity_one_negone, by rw [compute_similarity_one_negone]; norm_num⟩

/-- Claim C2 (amended): `compute_similarity` returns 0.0 when either vector
is empty, and otherwise the raw (unclamped) cosine similarity of the
length-truncated vectors, which always lies in `[-1, 1]`; negative cosines
are returned as-is, so the claimed clamping into `[0, 1]` does not hold. -/
theorem compute_similarity_range (a b : List ℝ) :
    (-1 ≤ compute_similarity a b ∧ compute_similarity a b ≤ 1) ∧
    compute_similarity [] b = 0 ∧ compute_similarity a [] = 0 := by
  refine ⟨compute_similarity_bounds a b, ?_, ?_⟩
  · unfold compute_similarity
    exact if_pos (Or.inl rfl)
  · unfold compute_similarity
    exact if_pos (Or.inr rfl)

/-- Claim C7: the scorer gives a non-zero vector similarity exactly 1.0
against itself (self-similarity is maximal). -/
theorem compute_similarity_self_is_one (v : List ℝ) (h : ∃ x ∈ v, x ≠ 0) :
    compute_similarity v v = 1 :=
  compute_similarity_self_eq_one v h

/-- Witness for C7 at the concrete non-zero vector `[1.0]`. -/
theorem compute_similarity_self_is_one_witness :
    compute_similarity [(1 : ℝ)] [(1 : ℝ)] = 1 :=
  compute_similarity_self_is_one [(1 : ℝ)] ⟨1, by simp, by norm_num⟩

/-- Claim C10: the scorer is symmetric in its two arguments, for all
vectors including empty or different-length ones. -/
theorem compute_similarity_symmetric (a b : List ℝ) :
    compute_similarity a b = compute_similarity b a :=
  compute_similarity_comm a b

/-- Claim C9: when the embedding collaborator fails for a text,
`get_embedding` returns the 768-dimensional all-zero vector instead of
propagating the error, and that vector scores 0.0 against every other
embedding in either argument position. -/
theorem get_embedding_failure_zero (collab : Collaborators) (text msg : String)
    (h : collab.embed text = .error msg) :
    get_embedding collab text = List.replicate 768 (0 : ℝ) ∧
    ∀ other : List ℝ,
      compute_similarity (get_embedding collab text) other = 0 ∧
      compute_similarity other (get_embedding collab text) = 0 := by
  have hg : get_embedding collab text = List.replicate 768 (0 : ℝ) := by
    unfold get_embedding
    rw [h]
  refine ⟨hg, fun other => ?_⟩
  rw [hg]
  exact ⟨compute_similarity_zero_left other 768, compute_similarity_zero_right other 768⟩

/-- Witness for C9 at the always-failing embedding collaborator. -/
theorem get_embedding_failure_zero_witness :
    get_embedding collabFail "t" = List.replicate 768 (0 : ℝ) ∧
    ∀ other : List ℝ,
      compute_similarity (get_embedding collabFail "t") other = 0 ∧
      compute_similarity other (get_embedding collabFail "t") = 0 :=
  get_embedding_failure_zero collabFail "t" "boom" rfl

/-! ### Claims about the Clip Matcher on an empty catalog -/

/-- Claim C6, counterexample: with an empty catalog the matcher does return
an absent clip and score 0.0, but its reason string is
"No B-roll clips available", not the claimed "no candidates available". -/
theorem find_best_match_empty_reason_differs :
    find_best_match collabFail "hello" [] (0.4 : ℝ) ≠
      .ok (none, 0, "no candidates available") := by
  have he : find_best_match collabFail "hello" [] (0.4 : ℝ) =
      .ok (none, 0, "No B-roll clips available") := by
    unfold find_best_match
    exact if_pos rfl
  rw [he]
  intro h
  have hp := Except.ok.inj h
  have hs : "No B-roll clips available" = "no candidates available" :=
    congrArg (fun p => p.2.2) hp
  exact absurd hs (by decide)

/-- Claim C6 (amended): for every collaborator, segment text and threshold,
the matcher called with an empty clip catalog returns the triple
(absent clip, score 0.0, reason "No B-roll clips available") — the actual
reason string of the source, not the one quoted in the claim. -/
theorem find_best_match_empty_catalog (collab : Collaborators)
    (segment_text : String) (threshold : ℝ) :
    find_best_match collab segment_text [] threshold =
      .ok (none, 0, "No B-roll clips available") := by
  unfold find_best_match
  exact if_pos rfl

/-! ### The scoring loop of the Clip Matcher -/

lemma matchFold_spec (collab : Collaborators) (segEmb : List ℝ) :
    ∀ (clips : List ClipDescriptor) (b : Option ClipDescriptor) (bs : ℝ),
      (clips.foldl (matchStep collab segEmb) (b, bs) = (b, bs) ∧
        ∀ c ∈ clips, compute_similarity segEmb (get_embedding collab c.description) ≤ bs)
      ∨ (∃ pre c post, clips = pre ++ c :: post ∧
          clips.foldl (matchStep collab segEmb) (b, bs) =
            (some c, compute_similarity segEmb (get_embedding collab c.description)) ∧
          bs < compute_similarity segEmb (get_embedding collab c.description) ∧
          (∀ c' ∈ pre, compute_similarity segEmb (get_embedding collab c'.description) <
            compute_similarity segEmb (get_embedding collab c.description)) ∧
          (∀ c' ∈ post, compute_similarity segEmb (get_embedding collab c'.description) ≤
            compute_similarity segEmb (get_embedding collab c.description))) := by
  intro clips
  induction clips with
  | nil => intro b bs; exact Or.inl ⟨rfl, by simp⟩
  | cons cl rest ih =>
    intro b bs
    rw [List.foldl_cons]
    by_cases hs : bs < compute_similarity segEmb (get_embedding collab cl.description)
    · have hstep : matchStep collab segEmb (b, bs) cl =
          (some cl, compute_similarity segEmb (get_embedding collab cl.description)) := by
        unfold matchStep
        exact if_pos hs
      rw [hstep]
      rcases ih (some cl) (compute_similarity segEmb (get_embedding collab cl.description)) with
        ⟨heq, hall⟩ | ⟨pre, c, post, hsplit, hfold, hlt, hpre, hpost⟩
      · refine Or.inr ⟨[], cl, rest, by simp, heq, hs, by simp, ?_⟩
        intro c' hc'
        exact hall c' hc'
      · refine Or.inr ⟨cl :: pre, c, post, by rw [hsplit]; rfl, hfold, lt_trans hs hlt, ?_, hpost⟩
        intro c' hc'
        rcases List.mem_cons.1 hc' with rfl | hmem
        · exact hlt
        · exact hpre c' hmem
    · have hstep : matchStep collab segEmb (b, bs) cl = (b, bs) := by
        unfold matchStep
        exact if_neg hs
      rw [hstep]
      rcases ih b bs with ⟨heq, hall⟩ | ⟨pre, c, post, hsplit, hfold, hlt, hpre, hpost⟩
      · refine Or.inl ⟨heq, ?_⟩
        intro c' hc'
        rcases List.mem_cons.1 hc' with rfl | hmem
        · exact le_of_not_lt hs
        · exact hall c' hmem
      · refine Or.inr ⟨cl :: pre, c, post, by rw [hsplit]; rfl, hfold, hlt, ?_, hpost⟩
        intro c' hc'
        rcases List.mem_cons.1 hc' with rfl | hmem
        · exact lt_of_le_of_lt (le_of_not_lt hs) hlt
        · exact hpre c' hmem

lemma isEmpty_false_of_clips_ne_nil {broll_clips : List ClipDescriptor}
    (hne : broll_clips ≠ []) : broll_clips.isEmpty = false := by
  cases broll_clips with
  | nil => exact absurd rfl hne
  | cons h t => rfl

lemma find_best_match_ne_empty (collab : Collaborators) (segment_text : String)
    (broll_clips : List ClipDescriptor) (threshold : ℝ) (hne : broll_clips ≠ []) :
    find_best_match collab segment_text broll_clips threshold =
      if (bestOf collab segment_text broll_clips).2 < threshold then
        .ok (none, (bestOf collab segment_text broll_clips).2,
          "No B-roll clip matched above threshold " ++ collab.fmt threshold 2 ++
            ". Best score: " ++ collab.fmt (bestOf collab segment_text broll_clips).2 3)
      else
        match (bestOf collab segment_text broll_clips).1 with
        | some best_clip =>
            .ok (some best_clip, (bestOf collab segment_text broll_clips).2,
              generate_match_reason collab segment_text best_clip.description
                (bestOf collab segment_text broll_clips).2)
        | none => .error "TypeError: NoneType object is not subscriptable" := by
  unfold find_best_match
  rw [isEmpty_false_of_clips_ne_nil hne]
  simp

/-! ### Claim C4: selection semantics of the Clip Matcher -/

/-- Claim C4, counterexample: with a non-empty catalog whose only clip scores
exactly -1.0 (opposite one-dimensional embeddings) and a threshold of -2.0,
the winning score meets the threshold but no clip was ever selected, and the
source crashes on `best_clip['description']` instead of returning the
first-seen best clip. -/
theorem find_best_match_crash :
    find_best_match
        ⟨fun t => .ok (if t = "seg" then [(1 : ℝ)] else [(-1 : ℝ)]),
         fun _ _ _ => .error "down", fun _ _ => ""⟩
        "seg" [⟨"c1", "d1"⟩] (-2 : ℝ) =
      .error "TypeError: NoneType object is not subscriptable" := by
  set collabOpp : Collaborators :=
    ⟨fun t => .ok (if t = "seg" then [(1 : ℝ)] else [(-1 : ℝ)]),
     fun _ _ _ => .error "down", fun _ _ => ""⟩ with hco
  have h1 : get_embedding collabOpp "seg" = [(1 : ℝ)] := by
    unfold get_embedding
    rw [hco]
    simp
  have h2 : get_embedding collabOpp "d1" = [(-1 : ℝ)] := by
    unfold get_embedding
    rw [hco]
    simp
  have hsim : compute_similarity (get_embedding collabOpp "seg")
      (get_embedding collabOpp (⟨"c1", "d1"⟩ : ClipDescriptor).description) = -1 := by
    rw [h1, show (⟨"c1", "d1"⟩ : ClipDescriptor).description = "d1" from rfl, h2]
    exact compute_similarity_one_negone
  have hbest : bestOf collabOpp "seg" [⟨"c1", "d1"⟩] = (none, -1) := by
    unfold bestOf
    rw [List.foldl_cons, List.foldl_nil]
    unfold matchStep
    rw [hsim]
    norm_num
  rw [find_best_match_ne_empty _ _ _ _ (by simp), hbest]
  rw [if_neg (by norm_num)]

/-- Claim C4 (amended): for every non-empty clip catalog, segment text and
threshold strictly above -1.0 (in particular every threshold in [0,1]), the
matcher returns without error; the returned score is the highest similarity
in the catalog (attained by some clip); when the winner meets the threshold
the returned clip is the first catalog entry attaining that score (ties
broken by catalog order), and when the winning score is below the threshold
the clip is absent while the score still carries the winning value.  For
thresholds at or below -1.0 the source can instead crash, as the
counterexample shows. -/
theorem find_best_match_selects (collab : Collaborators) (segment_text : String)
    (broll_clips : List ClipDescriptor) (threshold : ℝ)
    (hne : broll_clips ≠ []) (ht : -1 < threshold) :
    ∃ best score reason,
      find_best_match collab segment_text broll_clips threshold = .ok (best, score, reason) ∧
      (∃ c ∈ broll_clips, score = clipScore collab segment_text c) ∧
      (∀ c ∈ broll_clips, clipScore collab segment_text c ≤ score) ∧
      (threshold ≤ score → ∃ pre c post, broll_clips = pre ++ c :: post ∧
        best = some c ∧ score = clipScore collab segment_text c ∧
        ∀ c' ∈ pre, clipScore collab segment_text c' < score) ∧
      (score < threshold → best = none) := by
  rw [find_best_match_ne_empty collab segment_text broll_clips threshold hne]
  rcases matchFold_spec collab (get_embedding collab segment_text) broll_clips none (-1) with
    ⟨heq, hall⟩ | ⟨pre, c, post, hsplit, hfold, hlt, hpre, hpost⟩
  · have hb : bestOf collab segment_text broll_clips = (none, -1) := heq
    rw [hb]
    rw [if_pos (by exact ht)]
    obtain ⟨c0, hc0⟩ : ∃ c0, c0 ∈ broll_clips := by
      cases broll_clips with
      | nil => exact absurd rfl hne
      | cons h t => exact ⟨h, List.mem_cons_self h t⟩
    have hc0sim : clipScore collab segment_text c0 = -1 :=
      le_antisymm (hall c0 hc0) (compute_similarity_bounds _ _).1
    refine ⟨none, -1, _, rfl, ⟨c0, hc0, hc0sim.symm⟩, ?_, ?_, fun _ => rfl⟩
    · intro c hc
      exact hall c hc
    · intro hth
      exact absurd hth (not_le.2 ht)
  · have hb : bestOf collab segment_text broll_clips =
        (some c, clipScore collab segment_text c) := hfold
    rw [hb]
    by_cases hth : clipScore collab segment_text c < threshold
    · rw [if_pos hth]
      refine ⟨none, clipScore collab segment_text c, _, rfl, ⟨c, ?_, rfl⟩, ?_, ?_, fun _ => rfl⟩
      · rw [hsplit]
        exact List.mem_append_right pre (List.mem_cons_self c post)
      · intro c' hc'
        rw [hsplit] at hc'
        rcases List.mem_append.1 hc' with hmem | hmem
        · exact le_of_lt (hpre c' hmem)
        · rcases List.mem_cons.1 hmem with rfl | hmem2
          · exact le_refl _
          · exact hpost c' hmem2
      · intro hge
        exact absurd hth (not_lt.2 hge)
    · rw [if_neg hth]
      refine ⟨some c, clipScore collab segment_text c, _, rfl, ⟨c, ?_, rfl⟩, ?_, ?_, ?_⟩
      · rw [hsplit]
        exact List.mem_append_right pre (List.mem_cons_self c post)
      · intro c' hc'
        rw [hsplit] at hc'
        rcases List.mem_append.1 hc' with hmem | hmem
        · exact le_of_lt (hpre c' hmem)
        · rcases List.mem_cons.1 hmem with rfl | hmem2
          · exact le_refl _
          · exact hpost c' hmem2
      · intro _
        exact ⟨pre, c, post, hsplit, rfl, rfl, fun c' hc' => hpre c' hc'⟩
      · intro hlt2
        exact absurd hlt2 hth

/-- Witness for C4: a one-clip catalog whose clip scores 1.0 with
threshold 0.4; the matcher selects it. -/
theorem find_best_match_selects_witness :
    ∃ best score reason,
      find_best_match collabOne "seg" [clipC] (0.4 : ℝ) = .ok (best, score, reason) ∧
      (∃ c ∈ [clipC], score = clipScore collabOne "seg" c) ∧
      (∀ c ∈ [clipC], clipScore collabOne "seg" c ≤ score) ∧
      ((0.4 : ℝ) ≤ score → ∃ pre c post, [clipC] = pre ++ c :: post ∧
        best = some c ∧ score = clipScore collabOne "seg" c ∧
        ∀ c' ∈ pre, clipScore collabOne "seg" c' < score) ∧
      (score < (0.4 : ℝ) → best = none) :=
  find_best_match_selects collabOne "seg" [clipC] (0.4 : ℝ) (by simp) (by norm_num)

/-! ### The planner scan -/

lemma planEdits_nil (collab : Collaborators) (clips : List ClipDescriptor)
    (t g last : ℝ) : planEdits collab clips t g last [] = .ok [] := rfl

lemma planEdits_cons (collab : Collaborators) (clips : List ClipDescriptor)
    (t g last : ℝ) (seg : Segment) (rest : List Segment) :
    planEdits collab clips t g last (seg :: rest) =
      if seg.start - last < g then planEdits collab clips t g last rest
      else
        match find_best_match collab seg.text clips t with
        | .error e => .error e
        | .ok (best_clip, similarity, reason) =>
          match best_clip with
          | none => planEdits collab clips t g last rest
          | some clip =>
            if brollDuration seg < 2.0 then planEdits collab clips t g last rest
            else
              match planEdits collab clips t g (seg.start + brollDuration seg) rest with
              | .error e => .error e
              | .ok rest_edits =>
                .ok (⟨seg.start, round2 (brollDuration seg), clip.clip_name, reason,
                      seg.text.take 100, round3 similarity⟩ :: rest_edits) := rfl

lemma planEdits_cons_skip_gap (collab : Collaborators) (clips : List ClipDescriptor)
    (t g last : ℝ) (seg : Segment) (rest : List Segment)
    (hgap : seg.start - last < g) :
    planEdits collab clips t g last (seg :: rest) = planEdits collab clips t g last rest := by
  rw [planEdits_cons, if_pos hgap]

lemma planEdits_cons_error (collab : Collaborators) (clips : List ClipDescriptor)
    (t g last : ℝ) (seg : Segment) (rest : List Segment) (er : String)
    (hgap : ¬ seg.start - last < g)
    (hfb : find_best_match collab seg.text clips t = .error er) :
    planEdits collab clips t g last (seg :: rest) = .error er := by
  rw [planEdits_cons, if_neg hgap, hfb]

lemma planEdits_cons_none (collab : Collaborators) (clips : List ClipDescriptor)
    (t g last : ℝ) (seg : Segment) (rest : List Segment) (similarity : ℝ) (reason : String)
    (hgap : ¬ seg.start - last < g)
    (hfb : find_best_match collab seg.text clips t = .ok (none, similarity, reason)) :
    planEdits collab clips t g last (seg :: rest) = planEdits collab clips t g last rest := by
  rw [planEdits_cons, if_neg hgap, hfb]

lemma planEdits_cons_short (collab : Collaborators) (clips : List ClipDescriptor)
    (t g last : ℝ) (seg : Segment) (rest : List Segment) (clip : ClipDescriptor)
    (similarity : ℝ) (reason : String)
    (hgap : ¬ seg.start - last < g)
    (hfb : find_best_match collab seg.text clips t = .ok (some clip, similarity, reason))
    (hbd : brollDuration seg < 2.0) :
    planEdits collab clips t g last (seg :: rest) = planEdits collab clips t g last rest := by
  rw [planEdits_cons, if_neg hgap, hfb]
  exact if_pos hbd

lemma planEdits_cons_commit (collab : Collaborators) (clips : List ClipDescriptor)
    (t g last : ℝ) (seg : Segment) (rest : List Segment) (clip : ClipDescriptor)
    (similarity : ℝ) (reason : String)
    (hgap : ¬ seg.start - last < g)
    (hfb : find_best_match collab seg.text clips t = .ok (some clip, similarity, reason))
    (hbd : ¬ brollDuration seg < 2.0) :
    planEdits collab clips t g last (seg :: rest) =
      match planEdits collab clips t g (seg.start + brollDuration seg) rest with
      | .error e => .error e
      | .ok rest_edits =>
        .ok (⟨seg.start, round2 (brollDuration seg), clip.clip_name, reason,
              seg.text.take 100, round3 similarity⟩ :: rest_edits) := by
  rw [planEdits_cons, if_neg hgap, hfb]
  exact if_neg hbd

lemma planEdits_spec (collab : Collaborators) (clips : List ClipDescriptor) (t g : ℝ)
    (hg : 1 / 200 ≤ g) :
    ∀ (segs : List Segment) (last : ℝ) (edits : List EditDecision),
      planEdits collab clips t g last segs = .ok edits →
      List.Chain' (fun a b => a.start_time + a.duration ≤ b.start_time ∧
        a.start_time ≤ b.start_time) edits ∧
      ∀ e ∈ edits, last + g ≤ e.start_time ∧ 2 ≤ e.duration := by
  intro segs
  induction segs with
  | nil =>
    intro last edits h
    rw [planEdits_nil] at h
    obtain rfl : edits = [] := (Except.ok.inj h).symm
    exact ⟨List.chain'_nil, by simp⟩
  | cons seg rest ih =>
    intro last edits h
    by_cases hgap : seg.start - last < g
    · rw [planEdits_cons_skip_gap collab clips t g last seg rest hgap] at h
      exact ih last edits h
    · rcases hfb : find_best_match collab seg.text clips t with er | ⟨best_clip, similarity, reason⟩
      · rw [planEdits_cons_error collab clips t g last seg rest er hgap hfb] at h
        simp at h
      · cases best_clip with
        | none =>
          rw [planEdits_cons_none collab clips t g last seg rest similarity reason hgap hfb] at h
          exact ih last edits h
        | some clip =>
          by_cases hbd : brollDuration seg < 2.0
          · rw [planEdits_cons_short collab clips t g last seg rest clip similarity reason
              hgap hfb hbd] at h
            exact ih last edits h
          · rw [planEdits_cons_commit collab clips t g last seg rest clip similarity reason
              hgap hfb hbd] at h
            rcases hrec : planEdits collab clips t g (seg.start + brollDuration seg) rest with
              e2 | rest_edits
            · rw [hrec] at h
              have h' : (Except.error e2 : Except String (List EditDecision)) = .ok edits := h
              simp at h'
            · rw [hrec] at h
              have h' : Except.ok (⟨seg.start, round2 (brollDuration seg), clip.clip_name,
                  reason, seg.text.take 100, round3 similarity⟩ :: rest_edits) =
                  Except.ok edits := h
              obtain rfl : edits = _ := (Except.ok.inj h').symm
              push_neg at hbd hgap
              obtain ⟨chainR, hallR⟩ := ih (seg.start + brollDuration seg) rest_edits hrec
              have hbd2 : (2 : ℝ) ≤ brollDuration seg := by linarith [hbd]
              have hdur : 2 ≤ round2 (brollDuration seg) := round2_two_le _ hbd2
              have hr2 := round2_le (brollDuration seg)
              constructor
              · rw [List.chain'_cons']
                refine ⟨?_, chainR⟩
                intro y hy
                have hy' := hallR y (List.mem_of_mem_head? hy)
                dsimp only
                exact ⟨by linarith [hy'.1], by linarith [hy'.1]⟩
              · intro e he
                rcases List.mem_cons.1 he with rfl | hmem
                · dsimp only
                  exact ⟨by linarith, hdur⟩
                · have he' := hallR e hmem
                  exact ⟨by linarith [he'.1], he'.2⟩

lemma planEdits_mem (collab : Collaborators) (clips : List ClipDescriptor) (t g : ℝ) :
    ∀ (segs : List Segment) (last : ℝ) (edits : List EditDecision),
      planEdits collab clips t g last segs = .ok edits →
      ∀ e ∈ edits, ∃ seg ∈ segs, e.start_time = seg.start ∧
        e.duration = round2 (brollDuration seg) ∧ 2 ≤ brollDuration seg := by
  intro segs
  induction segs with
  | nil =>
    intro last edits h
    rw [planEdits_nil] at h
    obtain rfl : edits = [] := (Except.ok.inj h).symm
    simp
  | cons seg rest ih =>
    intro last edits h
    by_cases hgap : seg.start - last < g
    · rw [planEdits_cons_skip_gap collab clips t g last seg rest hgap] at h
      intro e he
      obtain ⟨s, hs, hprop⟩ := ih last edits h e he
      exact ⟨s, List.mem_cons_of_mem seg hs, hprop⟩
    · rcases hfb : find_best_match collab seg.text clips t with er | ⟨best_clip, similarity, reason⟩
      · rw [planEdits_cons_error collab clips t g last seg rest er hgap hfb] at h
        simp at h
      · cases best_clip with
        | none =>
          rw [planEdits_cons_none collab clips t g last seg rest similarity reason hgap hfb] at h
          intro e he
          obtain ⟨s, hs, hprop⟩ := ih last edits h e he
          exact ⟨s, List.mem_cons_of_mem seg hs, hprop⟩
        | some clip =>
          by_cases hbd : brollDuration seg < 2.0
          · rw [planEdits_cons_short collab clips t g last seg rest clip similarity reason
              hgap hfb hbd] at h
            intro e he
            obtain ⟨s, hs, hprop⟩ := ih last edits h e he
            exact ⟨s, List.mem_cons_of_mem seg hs, hprop⟩
          · rw [planEdits_cons_commit collab clips t g last seg rest clip similarity reason
              hgap hfb hbd] at h
            rcases hrec : planEdits collab clips t g (seg.start + brollDuration seg) rest with
              e2 | rest_edits
            · rw [hrec] at h
              have h' : (Except.error e2 : Except String (List EditDecision)) = .ok edits := h
              simp at h'
            · rw [hrec] at h
              have h' : Except.ok (⟨seg.start, round2 (brollDuration seg), clip.clip_name,
                  reason, seg.text.take 100, round3 similarity⟩ :: rest_edits) =
                  Except.ok edits := h
              obtain rfl : edits = _ := (Except.ok.inj h').symm
              push_neg at hbd
              intro e he
              rcases List.mem_cons.1 he with rfl | hmem
              · exact ⟨seg, List.mem_cons_self seg rest, rfl, rfl, by linarith [hbd]⟩
              · obtain ⟨s, hs, hprop⟩ := ih (seg.start + brollDuration seg) rest_edits hrec e hmem
                exact ⟨s, List.mem_cons_of_mem seg hs, hprop⟩

lemma generate_edit_plan_ok (collab : Collaborators) (segs : List Segment)
    (clips : List ClipDescriptor) (t g : ℝ) (edl : EDL)
    (h : generate_edit_plan collab segs clips t g = .ok edl) :
    planEdits collab clips t g (-g) segs = .ok edl.edits ∧
    edl.metadata = ⟨segs.length, clips.length, edl.edits.length, t, g⟩ := by
  unfold generate_edit_plan at h
  rcases hpe : planEdits collab clips t g (-g) segs with er | edits
  · rw [hpe] at h
    exact (Except.noConfusion h)
  · rw [hpe] at h
    have h' : Except.ok ((⟨⟨segs.length, clips.length, edits.length, t, g⟩, edits⟩ : EDL))
        = .ok edl := h
    obtain rfl : edl = _ := (Except.ok.inj h').symm
    exact ⟨rfl, rfl⟩

/-- Claim C1 (amended): for every planning run whose `min_gap` is at least
0.005 = 1/200 (half of the 2-decimal rounding step of the stored duration;
in particular the source default 8.0), a successfully produced EDL has its
edits ordered by `start_time`, every pair of consecutive edits satisfies
`e[i+1].start_time >= e[i].start_time + e[i].duration`, and
`metadata.edits_applied` equals the number of edits.  For `min_gap` below
1/200 — and a fortiori for negative gaps — the no-overlap property fails,
because the stored duration `round(broll_duration, 2)` can exceed the
unrounded `broll_duration` used to advance `last_edit_time`; see the
counterexample. -/
theorem generate_edit_plan_ordered (collab : Collaborators)
    (transcript_segments : List Segment) (broll_clips : List ClipDescriptor)
    (similarity_threshold min_gap : ℝ) (edl : EDL)
    (hg : 1 / 200 ≤ min_gap)
    (h : generate_edit_plan collab transcript_segments broll_clips
      similarity_threshold min_gap = .ok edl) :
    edl.metadata.edits_applied = edl.edits.length ∧
    List.Chain' (fun a b => a.start_time ≤ b.start_time) edl.edits ∧
    List.Chain' (fun a b => a.start_time + a.duration ≤ b.start_time) edl.edits := by
  obtain ⟨hpe, hmeta⟩ := generate_edit_plan_ok collab transcript_segments broll_clips
    similarity_threshold min_gap edl h
  obtain ⟨chain, hall⟩ := planEdits_spec collab broll_clips similarity_threshold min_gap hg
    transcript_segments (-min_gap) edl.edits hpe
  refine ⟨by rw [hmeta], ?_, ?_⟩
  · exact chain.imp (fun a b hab => hab.2)
  · exact chain.imp (fun a b hab => hab.1)

/-! ### The EDL validator -/

lemma validateEdits_cons_noStart (idx : ℕ) (d? : Option ℝ) (b? r? : Option String)
    (rest : List RawEdit) :
    validateEdits idx (⟨none, d?, b?, r?⟩ :: rest) =
      .error ("Edit " ++ toString idx ++ " missing required field: start_time") := rfl

lemma validateEdits_cons_noDur (idx : ℕ) (st : ℝ) (b? r? : Option String)
    (rest : List RawEdit) :
    validateEdits idx (⟨some st, none, b?, r?⟩ :: rest) =
      .error ("Edit " ++ toString idx ++ " missing required field: duration") := rfl

lemma validateEdits_cons_noClip (idx : ℕ) (st d : ℝ) (r? : Option String)
    (rest : List RawEdit) :
    validateEdits idx (⟨some st, some d, none, r?⟩ :: rest) =
      .error ("Edit " ++ toString idx ++ " missing required field: b_roll_clip") := rfl

lemma validateEdits_cons_noReason (idx : ℕ) (st d : ℝ) (b : String)
    (rest : List RawEdit) :
    validateEdits idx (⟨some st, some d, some b, none⟩ :: rest) =
      .error ("Edit " ++ toString idx ++ " missing required field: reason") := rfl

lemma validateEdits_cons_some (idx : ℕ) (st d : ℝ) (b r : String) (rest : List RawEdit) :
    validateEdits idx (⟨some st, some d, some b, some r⟩ :: rest) =
      if d ≤ 0 then .error ("Edit " ++ toString idx ++ " has invalid duration")
      else if st < 0 then .error ("Edit " ++ toString idx ++ " has invalid start_time")
      else validateEdits (idx + 1) rest := rfl

lemma validateEdits_ok : ∀ (l : List RawEdit) (idx : ℕ),
    validateEdits idx l = .ok true ↔ ∀ e ∈ l, ¬ invalidEdit e := by
  intro l
  induction l with
  | nil =>
    intro idx
    simp [validateEdits]
  | cons e rest ih =>
    intro idx
    obtain ⟨st?, d?, b?, r?⟩ := e
    rcases st? with _ | st
    · rw [validateEdits_cons_noStart]
      constructor
      · intro h
        exact Except.noConfusion h
      · intro hall
        exact absurd (Or.inl rfl) (hall _ (List.mem_cons_self _ _))
    rcases d? with _ | d
    · rw [validateEdits_cons_noDur]
      constructor
      · intro h
        exact Except.noConfusion h
      · intro hall
        exact absurd (Or.inr (Or.inl rfl)) (hall _ (List.mem_cons_self _ _))
    rcases b? with _ | b
    · rw [validateEdits_cons_noClip]
      constructor
      · intro h
        exact Except.noConfusion h
      · intro hall
        exact absurd (Or.inr (Or.inr (Or.inl rfl))) (hall _ (List.mem_cons_self _ _))
    rcases r? with _ | r
    · rw [validateEdits_cons_noReason]
      constructor
      · intro h
        exact Except.noConfusion h
      · intro hall
        exact absurd (Or.inr (Or.inr (Or.inr (Or.inl rfl)))) (hall _ (List.mem_cons_self _ _))
    rw [validateEdits_cons_some]
    by_cases hd : d ≤ 0
    · rw [if_pos hd]
      constructor
      · intro h
        exact Except.noConfusion h
      · intro hall
        exact absurd (Or.inr (Or.inr (Or.inr (Or.inr (Or.inl ⟨d, rfl, hd⟩)))))
          (hall _ (List.mem_cons_self _ _))
    · rw [if_neg hd]
      by_cases hst : st < 0
      · rw [if_pos hst]
        constructor
        · intro h
          exact Except.noConfusion h
        · intro hall
          exact absurd (Or.inr (Or.inr (Or.inr (Or.inr (Or.inr ⟨st, rfl, hst⟩)))))
            (hall _ (List.mem_cons_self _ _))
      · rw [if_neg hst]
        constructor
        · intro h e' he'
          rcases List.mem_cons.1 he' with rfl | hmem
          · intro hinv
            rcases hinv with h1 | h2 | h3 | h4 | ⟨d', hd', hd'le⟩ | ⟨st', hst', hstlt⟩
            · exact Option.noConfusion h1
            · exact Option.noConfusion h2
            · exact Option.noConfusion h3
            · exact Option.noConfusion h4
            · have hdd : d = d' := Option.some.inj (show some d = some d' from hd')
              exact hd (by rw [hdd]; exact hd'le)
            · have hss : st = st' := Option.some.inj (show some st = some st' from hst')
              exact hst (by rw [hss]; exact hstlt)
          · exact (ih (idx + 1)).1 h e' hmem
        · intro hall
          exact (ih (idx + 1)).2 (fun e' he' => hall e' (List.mem_cons_of_mem _ he'))

lemma validateEdits_total : ∀ (l : List RawEdit) (idx : ℕ),
    validateEdits idx l = .ok true ∨ ∃ m, validateEdits idx l = .error m := by
  intro l
  induction l with
  | nil =>
    intro idx
    exact Or.inl rfl
  | cons e rest ih =>
    intro idx
    obtain ⟨st?, d?, b?, r?⟩ := e
    rcases st? with _ | st
    · exact Or.inr ⟨_, validateEdits_cons_noStart idx d? b? r? rest⟩
    rcases d? with _ | d
    · exact Or.inr ⟨_, validateEdits_cons_noDur idx st b? r? rest⟩
    rcases b? with _ | b
    · exact Or.inr ⟨_, validateEdits_cons_noClip idx st d r? rest⟩
    rcases r? with _ | r
    · exact Or.inr ⟨_, validateEdits_cons_noReason idx st d b rest⟩
    by_cases hd : d ≤ 0
    · exact Or.inr ⟨_, by rw [validateEdits_cons_some, if_pos hd]⟩
    · by_cases hst : st < 0
      · exact Or.inr ⟨_, by rw [validateEdits_cons_some, if_neg hd, if_pos hst]⟩
      · rcases ih (idx + 1) with hok | ⟨m, herr⟩
        · exact Or.inl (by rw [validateEdits_cons_some, if_neg hd, if_neg hst]; exact hok)
        · exact Or.inr ⟨m, by rw [validateEdits_cons_some, if_neg hd, if_neg hst]; exact herr⟩

/-- Claim C5: `validate_edl` raises a validation error if and only if the
`edits` key is absent, or some edit is missing one of `start_time`,
`duration`, `b_roll_clip`, `reason`, or some edit has `duration <= 0` or
`start_time < 0`; otherwise it returns `true`.  In particular a well-formed
EDL whose edits are unordered or overlapping still validates, since neither
ordering nor overlap appears in the failure condition. -/
theorem validate_edl_iff (edits? : Option (List RawEdit)) :
    ((∃ msg, validate_edl edits? = .error msg) ↔
      (edits? = none ∨ ∃ e ∈ edits?.getD [], invalidEdit e)) ∧
    (validate_edl edits? = .ok true ↔
      ¬ (edits? = none ∨ ∃ e ∈ edits?.getD [], invalidEdit e)) := by
  cases edits? with
  | none =>
    constructor
    · simp [validate_edl]
    · constructor
      · intro h
        exact Except.noConfusion h
      · intro h
        exact absurd (Or.inl rfl) h
  | some es =>
    have hiff := validateEdits_ok es 0
    have htot := validateEdits_total es 0
    constructor
    · constructor
      · rintro ⟨msg, hmsg⟩
        refine Or.inr ?_
        by_contra hno
        push_neg at hno
        have hok : validateEdits 0 es = .ok true := hiff.2 (by
          intro e he
          exact hno e he)
        rw [show validate_edl (some es) = validateEdits 0 es from rfl, hok] at hmsg
        exact Except.noConfusion hmsg
      · rintro (hnone | ⟨e, he, hinv⟩)
        · exact Option.noConfusion hnone
        · rcases htot with hok | ⟨m, herr⟩
          · have := hiff.1 hok e (by simpa using he)
            exact absurd hinv this
          · exact ⟨m, by rw [show validate_edl (some es) = validateEdits 0 es from rfl, herr]⟩
    · constructor
      · intro hok
        rintro (hnone | ⟨e, he, hinv⟩)
        · exact Option.noConfusion hnone
        · have := hiff.1 (by rw [show validate_edl (some es) = validateEdits 0 es from rfl] at hok; exact hok) e (by simpa using he)
          exact absurd hinv this
      · intro hno
        push_neg at hno
        rw [show validate_edl (some es) = validateEdits 0 es from rfl]
        exact hiff.2 (fun e he => hno.2 e (by simpa using he))

/-- Claim C8: whenever every transcript segment has a non-negative start (for
any catalog, threshold and minimum gap), an EDL successfully produced by
`generate_edit_plan` passes `validate_edl`: all checked fields are present,
every duration is positive and every start time is non-negative. -/
theorem generate_edit_plan_validates (collab : Collaborators)
    (transcript_segments : List Segment) (broll_clips : List ClipDescriptor)
    (similarity_threshold min_gap : ℝ) (edl : EDL)
    (hstart : ∀ s ∈ transcript_segments, 0 ≤ s.start)
    (h : generate_edit_plan collab transcript_segments broll_clips
      similarity_threshold min_gap = .ok edl) :
    validate_edl (some (edl.edits.map editToRaw)) = .ok true := by
  obtain ⟨hpe, _⟩ := generate_edit_plan_ok collab transcript_segments broll_clips
    similarity_threshold min_gap edl h
  have hmem := planEdits_mem collab broll_clips similarity_threshold min_gap
    transcript_segments (-min_gap) edl.edits hpe
  rw [show validate_edl (some (edl.edits.map editToRaw)) =
    validateEdits 0 (edl.edits.map editToRaw) from rfl]
  refine (validateEdits_ok _ 0).2 ?_
  intro re hre
  rw [List.mem_map] at hre
  obtain ⟨e, he, rfl⟩ := hre
  obtain ⟨seg, hseg, hst, hdur, hbd⟩ := hmem e he
  intro hinv
  rcases hinv with h1 | h2 | h3 | h4 | ⟨d', hd', hd'le⟩ | ⟨st', hst', hstlt⟩
  · exact Option.noConfusion h1
  · exact Option.noConfusion h2
  · exact Option.noConfusion h3
  · exact Option.noConfusion h4
  · have hde : e.duration = d' := Option.some.inj (show some e.duration = some d' from hd')
    have h2d : 2 ≤ e.duration := by
      rw [hdur]
      exact round2_two_le _ hbd
    linarith [hd'le, h2d, hde.ge, hde.le]
  · have hse : e.start_time = st' := Option.some.inj (show some e.start_time = some st' from hst')
    have h0 : 0 ≤ seg.start := hstart seg hseg
    rw [hst] at hse
    linarith [hstlt, h0, hse.ge, hse.le]

/-! ### Concrete evaluation helpers -/

lemma clipScore_one (text : String) (clip : ClipDescriptor) :
    clipScore collabOne text clip = 1 := by
  unfold clipScore
  rw [show get_embedding collabOne text = [(1 : ℝ)] from rfl,
    show get_embedding collabOne clip.description = [(1 : ℝ)] from rfl]
  exact compute_similarity_self_eq_one [(1 : ℝ)] ⟨1, by simp, one_ne_zero⟩

lemma fbm_one (text : String) (threshold : ℝ) (hth : ¬ (1 : ℝ) < threshold) :
    ∃ r, find_best_match collabOne text [clipC] threshold = .ok (some clipC, 1, r) := by
  have hbest : bestOf collabOne text [clipC] = (some clipC, 1) := by
    unfold bestOf
    rw [List.foldl_cons, List.foldl_nil]
    unfold matchStep
    rw [show compute_similarity (get_embedding collabOne text)
      (get_embedding collabOne clipC.description) = 1 from clipScore_one text clipC]
    norm_num
  rw [find_best_match_ne_empty _ _ _ _ (by simp), hbest]
  dsimp only
  rw [if_neg hth]
  exact ⟨_, rfl⟩

lemma getEmb_scen_intro : get_embedding collabScen "intro" = [(1 : ℝ), 0] := by
  unfold get_embedding collabScen
  simp

lemma getEmb_scen_d1 : get_embedding collabScen "d1" = [(9 / 10 : ℝ), Real.sqrt 19 / 10] := by
  unfold get_embedding collabScen
  simp

lemma sim_scen :
    compute_similarity [(1 : ℝ), 0] [(9 / 10 : ℝ), Real.sqrt 19 / 10] = 9 / 10 := by
  unfold compute_similarity
  rw [if_neg (by simp), if_neg (by simp)]
  unfold cosine_sim
  have h19 : Real.sqrt 19 * Real.sqrt 19 = 19 := Real.mul_self_sqrt (by norm_num)
  have h1 : normSq [(1 : ℝ), 0] = 1 := by
    rw [show ([(1 : ℝ), 0] : List ℝ) = 1 :: [(0 : ℝ)] from rfl]
    rw [normSq_cons, show normSq [(0 : ℝ)] = 0 * 0 + normSq [] from normSq_cons 0 [], normSq_nil]
    norm_num
  have h2 : normSq [(9 / 10 : ℝ), Real.sqrt 19 / 10] = 1 := by
    rw [show ([(9 / 10 : ℝ), Real.sqrt 19 / 10] : List ℝ) =
      (9 / 10 : ℝ) :: [Real.sqrt 19 / 10] from rfl]
    rw [normSq_cons, show normSq [Real.sqrt 19 / 10] =
      (Real.sqrt 19 / 10) * (Real.sqrt 19 / 10) + normSq [] from normSq_cons _ [], normSq_nil]
    have h1919 : (Real.sqrt 19 / 10) * (Real.sqrt 19 / 10) = 19 / 100 := by
      rw [div_mul_div_comm, h19]
      norm_num
    rw [h1919]
    norm_num
  have hdot : dotList [(1 : ℝ), 0] [(9 / 10 : ℝ), Real.sqrt 19 / 10] = 9 / 10 := by
    rw [show dotList [(1 : ℝ), 0] [(9 / 10 : ℝ), Real.sqrt 19 / 10] =
      1 * (9 / 10) + dotList [(0 : ℝ)] [Real.sqrt 19 / 10] from dotList_cons _ _ _ _]
    rw [show dotList [(0 : ℝ)] [Real.sqrt 19 / 10] =
      0 * (Real.sqrt 19 / 10) + dotList [] [] from dotList_cons _ _ _ _, dotList_nil]
    norm_num
  rw [h1, h2, Real.sqrt_one, if_neg (by norm_num), hdot]
  norm_num

lemma clipScore_scen : clipScore collabScen "intro" clipC = 9 / 10 := by
  unfold clipScore
  rw [getEmb_scen_intro, show clipC.description = "d1" from rfl, getEmb_scen_d1, sim_scen]

lemma fbm_scen : ∃ r,
    find_best_match collabScen "intro" [clipC] (0.4 : ℝ) = .ok (some clipC, 9 / 10, r) := by
  have hbest : bestOf collabScen "intro" [clipC] = (some clipC, 9 / 10) := by
    unfold bestOf
    rw [List.foldl_cons, List.foldl_nil]
    unfold matchStep
    rw [show compute_similarity (get_embedding collabScen "intro")
      (get_embedding collabScen clipC.description) = 9 / 10 from clipScore_scen]
    norm_num
  rw [find_best_match_ne_empty _ _ _ _ (by simp), hbest]
  dsimp only
  rw [if_neg (by norm_num)]
  exact ⟨_, rfl⟩

lemma plan_empty_clips :
    generate_edit_plan collabOne [segIntro] [] (1 / 2 : ℝ) 8 = .ok edlEmpty := by
  have hgap : ¬ (segIntro.start - (-(8 : ℝ)) < 8) := by
    unfold segIntro
    norm_num
  have hfbm : find_best_match collabOne segIntro.text [] (1 / 2 : ℝ) =
      .ok (none, 0, "No B-roll clips available") := if_pos rfl
  have hplan : planEdits collabOne [] (1 / 2 : ℝ) 8 (-8) [segIntro] = .ok [] := by
    rw [planEdits_cons_none collabOne [] (1 / 2) 8 (-8) segIntro [] 0
      "No B-roll clips available" hgap hfbm]
    exact planEdits_nil collabOne [] (1 / 2) 8 (-8)
  unfold generate_edit_plan
  rw [hplan]
  rfl

lemma plan_scen : ∃ edlA,
    generate_edit_plan collabScen [segIntro] [clipC] (0.4 : ℝ) 8 = .ok edlA ∧
    edlA.edits.map (fun e => (e.start_time, e.duration, e.similarity_score)) =
      [((0 : ℝ), (8 : ℝ), (9 / 10 : ℝ))] := by
  obtain ⟨r, hfbm⟩ := fbm_scen
  have hbd : brollDuration segIntro = 8 := by
    unfold brollDuration segIntro
    dsimp only
    rw [show ((10 : ℝ) - 0) * 0.8 = 8 by norm_num, show (10 : ℝ) - 0 = 10 by norm_num]
    rw [min_eq_left (by norm_num)]
  have hgap : ¬ (segIntro.start - (-(8 : ℝ)) < 8) := by
    unfold segIntro
    norm_num
  have hplan : planEdits collabScen [clipC] (0.4 : ℝ) 8 (-8) [segIntro] =
      .ok [⟨segIntro.start, round2 (brollDuration segIntro), clipC.clip_name, r,
        segIntro.text.take 100, round3 (9 / 10)⟩] := by
    rw [planEdits_cons_commit collabScen [clipC] (0.4 : ℝ) 8 (-8) segIntro [] clipC
      (9 / 10) r hgap (by rw [show segIntro.text = "intro" from rfl]; exact hfbm)
      (by rw [hbd]; norm_num)]
    rw [planEdits_nil]
  refine ⟨⟨⟨1, 1, 1, 0.4, 8⟩, [⟨segIntro.start, round2 (brollDuration segIntro),
    clipC.clip_name, r, segIntro.text.take 100, round3 (9 / 10)⟩]⟩, ?_, ?_⟩
  · unfold generate_edit_plan
    rw [hplan]
    rfl
  · dsimp only [List.map_cons, List.map_nil]
    rw [hbd, round2_eval 8 800 (by norm_num) (by norm_num),
      round3_eval (9 / 10) 900 (by norm_num) (by norm_num)]
    unfold segIntro
    norm_num

/-! ### Claim C3: the duration policy of the Planner -/

/-- Claim C3: every edit the planner commits comes from a segment of the run
with `start_time` equal to the segment's start and
`duration = round(min(0.8 * d, d), 2)` where the unrounded B-roll duration
`min(0.8 * d, d)` is at least 2.0 seconds; consequently no committed edit has
`duration < 2.0`.  A matched segment whose B-roll duration is below 2.0 is
skipped without advancing `last_edit_time` (the scan continues with the same
state).  And Scenario A holds: the single segment (0, 10, "intro") with a
clip scoring 0.9 against threshold 0.4 yields exactly one edit with
`start_time = 0` and `duration = 8.0`. -/
theorem plan_duration_policy (collab : Collaborators)
    (transcript_segments : List Segment) (broll_clips : List ClipDescriptor)
    (similarity_threshold min_gap : ℝ) (edl : EDL)
    (h : generate_edit_plan collab transcript_segments broll_clips
      similarity_threshold min_gap = .ok edl) :
    (∀ e ∈ edl.edits, ∃ seg ∈ transcript_segments, e.start_time = seg.start ∧
      e.duration = round2 (brollDuration seg) ∧ 2 ≤ brollDuration seg ∧ 2 ≤ e.duration) ∧
    (∀ (seg : Segment) (rest : List Segment) (last similarity : ℝ)
      (clip : ClipDescriptor) (reason : String),
      ¬ seg.start - last < min_gap →
      find_best_match collab seg.text broll_clips similarity_threshold =
        .ok (some clip, similarity, reason) →
      brollDuration seg < 2.0 →
      planEdits collab broll_clips similarity_threshold min_gap last (seg :: rest) =
        planEdits collab broll_clips similarity_threshold min_gap last rest) ∧
    (∃ edlA, generate_edit_plan collabScen [segIntro] [clipC] (0.4 : ℝ) 8 = .ok edlA ∧
      edlA.edits.map (fun e => (e.start_time, e.duration, e.similarity_score)) =
        [((0 : ℝ), (8 : ℝ), (9 / 10 : ℝ))] ∧
      clipScore collabScen "intro" clipC = 9 / 10) := by
  obtain ⟨hpe, _⟩ := generate_edit_plan_ok collab transcript_segments broll_clips
    similarity_threshold min_gap edl h
  refine ⟨?_, ?_, ?_⟩
  · intro e he
    obtain ⟨seg, hseg, hst, hdur, hbd⟩ := planEdits_mem collab broll_clips
      similarity_threshold min_gap transcript_segments (-min_gap) edl.edits hpe e he
    exact ⟨seg, hseg, hst, hdur, hbd, by rw [hdur]; exact round2_two_le _ hbd⟩
  · intro seg rest last similarity clip reason hgap hfbm hbd
    exact planEdits_cons_short collab broll_clips similarity_threshold min_gap last
      seg rest clip similarity reason hgap hfbm hbd
  · obtain ⟨edlA, hA, hmap⟩ := plan_scen
    exact ⟨edlA, hA, hmap, clipScore_scen⟩

/-- Witness for C3 at a concrete run (one segment, empty catalog). -/
theorem plan_duration_policy_witness :
    (∀ e ∈ edlEmpty.edits, ∃ seg ∈ [segIntro], e.start_time = seg.start ∧
      e.duration = round2 (brollDuration seg) ∧ 2 ≤ brollDuration seg ∧ 2 ≤ e.duration) ∧
    (∀ (seg : Segment) (rest : List Segment) (last similarity : ℝ)
      (clip : ClipDescriptor) (reason : String),
      ¬ seg.start - last < (8 : ℝ) →
      find_best_match collabOne seg.text [] (1 / 2 : ℝ) =
        .ok (some clip, similarity, reason) →
      brollDuration seg < 2.0 →
      planEdits collabOne [] (1 / 2 : ℝ) 8 last (seg :: rest) =
        planEdits collabOne [] (1 / 2 : ℝ) 8 last rest) ∧
    (∃ edlA, generate_edit_plan collabScen [segIntro] [clipC] (0.4 : ℝ) 8 = .ok edlA ∧
      edlA.edits.map (fun e => (e.start_time, e.duration, e.similarity_score)) =
        [((0 : ℝ), (8 : ℝ), (9 / 10 : ℝ))] ∧
      clipScore collabScen "intro" clipC = 9 / 10) :=
  plan_duration_policy collabOne [segIntro] [] (1 / 2) 8 edlEmpty plan_empty_clips

/-- Witness for C1 (amended) at a concrete run (one segment, empty catalog,
gap 8 ≥ 1/200). -/
theorem generate_edit_plan_ordered_witness :
    edlEmpty.metadata.edits_applied = edlEmpty.edits.length ∧
    List.Chain' (fun a b => a.start_time ≤ b.start_time) edlEmpty.edits ∧
    List.Chain' (fun a b => a.start_time + a.duration ≤ b.start_time) edlEmpty.edits :=
  generate_edit_plan_ordered collabOne [segIntro] [] (1 / 2) 8 edlEmpty
    (by norm_num) plan_empty_clips

/-- Witness for C8 at a concrete run (one segment with start 0, empty
catalog). -/
theorem generate_edit_plan_validates_witness :
    validate_edl (some (edlEmpty.edits.map editToRaw)) = .ok true :=
  generate_edit_plan_validates collabOne [segIntro] [] (1 / 2) 8 edlEmpty
    (by
      intro s hs
      rw [List.mem_singleton] at hs
      rw [hs]
      unfold segIntro
      norm_num)
    plan_empty_clips

/-- Claim C1, counterexample: with `min_gap = 0.001` (the claim allows any
gap), segments (0, 2.52) and (2.018, 12.018) and a clip that always matches,
the first edit stores duration `round(2.016, 2) = 2.02` while the planner
advances `last_edit_time` only to the unrounded `2.016`; the second segment
clears the gap gate (`2.018 - 2.016 = 0.002 >= 0.001`, with a margin well
above double-precision noise) yet starts before the first edit's stored end,
so the produced edits overlap:
`e[1].start_time = 2.018 < 2.02 = e[0].start_time + e[0].duration`. -/
theorem generate_edit_plan_overlap_cex :
    ∃ edl, generate_edit_plan collabOne [cexSeg1, cexSeg2] [clipC]
        (0.5 : ℝ) (0.001 : ℝ) = .ok edl ∧
      edl.edits.map (fun e => (e.start_time, e.duration)) =
        [((0 : ℝ), (2.02 : ℝ)), ((2.018 : ℝ), (8 : ℝ))] ∧
      ¬ List.Chain' (fun a b => a.start_time + a.duration ≤ b.start_time) edl.edits := by
  obtain ⟨r1, hfbm1⟩ := fbm_one cexSeg1.text 0.5 (by norm_num)
  obtain ⟨r2, hfbm2⟩ := fbm_one cexSeg2.text 0.5 (by norm_num)
  have hbd1 : brollDuration cexSeg1 = 2.016 := by
    unfold brollDuration cexSeg1
    dsimp only
    rw [show ((2.52 : ℝ) - 0) * 0.8 = 2.016 by norm_num,
      show (2.52 : ℝ) - 0 = 2.52 by norm_num]
    rw [min_eq_left (by norm_num)]
  have hbd2 : brollDuration cexSeg2 = 8 := by
    unfold brollDuration cexSeg2
    dsimp only
    rw [show ((12.018 : ℝ) - 2.018) * 0.8 = 8 by norm_num,
      show (12.018 : ℝ) - 2.018 = 10 by norm_num]
    rw [min_eq_left (by norm_num)]
  have hgap1 : ¬ (cexSeg1.start - (-(0.001 : ℝ)) < 0.001) := by
    unfold cexSeg1
    norm_num
  have hgap2 : ¬ (cexSeg2.start - (cexSeg1.start + brollDuration cexSeg1) < (0.001 : ℝ)) := by
    rw [hbd1]
    unfold cexSeg1 cexSeg2
    norm_num
  have hplan2 : planEdits collabOne [clipC] (0.5 : ℝ) (0.001 : ℝ)
      (cexSeg1.start + brollDuration cexSeg1) [cexSeg2] =
      .ok [⟨cexSeg2.start, round2 (brollDuration cexSeg2), clipC.clip_name, r2,
        cexSeg2.text.take 100, round3 1⟩] := by
    rw [planEdits_cons_commit collabOne [clipC] (0.5 : ℝ) (0.001 : ℝ)
      (cexSeg1.start + brollDuration cexSeg1) cexSeg2 [] clipC 1 r2 hgap2 hfbm2
      (by rw [hbd2]; norm_num)]
    rw [planEdits_nil]
  have hplan : planEdits collabOne [clipC] (0.5 : ℝ) (0.001 : ℝ)
      (-(0.001 : ℝ)) [cexSeg1, cexSeg2] =
      .ok [⟨cexSeg1.start, round2 (brollDuration cexSeg1), clipC.clip_name, r1,
        cexSeg1.text.take 100, round3 1⟩,
        ⟨cexSeg2.start, round2 (brollDuration cexSeg2), clipC.clip_name, r2,
        cexSeg2.text.take 100, round3 1⟩] := by
    rw [planEdits_cons_commit collabOne [clipC] (0.5 : ℝ) (0.001 : ℝ)
      (-(0.001 : ℝ)) cexSeg1 [cexSeg2] clipC 1 r1 hgap1 hfbm1 (by rw [hbd1]; norm_num)]
    rw [hplan2]
  refine ⟨⟨⟨2, 1, 2, 0.5, 0.001⟩,
    [⟨cexSeg1.start, round2 (brollDuration cexSeg1), clipC.clip_name, r1,
      cexSeg1.text.take 100, round3 1⟩,
     ⟨cexSeg2.start, round2 (brollDuration cexSeg2), clipC.clip_name, r2,
      cexSeg2.text.take 100, round3 1⟩]⟩, ?_, ?_, ?_⟩
  · unfold generate_edit_plan
    rw [hplan]
    rfl
  · dsimp only [List.map_cons, List.map_nil]
    rw [hbd1, hbd2, round2_eval 2.016 202 (by norm_num) (by norm_num),
      round2_eval 8 800 (by norm_num) (by norm_num)]
    unfold cexSeg1 cexSeg2
    norm_num
  · intro hch
    rw [List.chain'_cons] at hch
    have hr := hch.1
    dsimp only at hr
    rw [hbd1, round2_eval 2.016 202 (by norm_num) (by norm_num)] at hr
    unfold cexSeg1 cexSeg2 at hr
    dsimp only at hr
    norm_num at hr
